import Mathlib

/-!
Verification of the egui/winit platform adapter (`src/lib.rs`) against its
natural-language specification.

The development shallowly embeds the event-translation and input-state
reconciliation layer: coordinates and deltas are modelled as rationals
(the source uses f32/f64 only for affine arithmetic on small values),
the `u32` touch press ref-count is modelled as an integer so that its
non-negativity is a provable invariant, the `u64` device indices as
naturals, and winit's `HashMap<DeviceId, u64>` as an association list
with lookup-before-insert (the source never inserts a present key).
Platform-conditional compilation (the `cfg!(target_os = "macos")` and
`#[cfg(target_os = "macos")]` splits) is modelled by an explicit
`macos : Bool` parameter.  The cfg-gated clipboard capability is
modelled as an injected `Option String` (present capability with its
current contents), following the design note of the specification.
-/

/-- egui `Vec2`: a 2D vector; components modelled as rationals. -/
structure Vec2 where
  x : ℚ
  y : ℚ
deriving DecidableEq

/-- egui `vec2` constructor. -/
def vec2 (x y : ℚ) : Vec2 := ⟨x, y⟩

/-- Componentwise division of a vector by a scalar (source: `v / s`). -/
def Vec2.divScalar (v : Vec2) (s : ℚ) : Vec2 := vec2 (v.x / s) (v.y / s)

/-- Componentwise multiplication of a vector by a scalar (source: `v * s`). -/
def Vec2.mulScalar (v : Vec2) (s : ℚ) : Vec2 := vec2 (v.x * s) (v.y * s)

/-- egui `Pos2`: a 2D position; components modelled as rationals. -/
structure Pos2 where
  x : ℚ
  y : ℚ
deriving DecidableEq

/-- egui `pos2` constructor. -/
def pos2 (x y : ℚ) : Pos2 := ⟨x, y⟩

/-- Source `Pos2::default()`: the origin. -/
def Pos2.default : Pos2 := pos2 0 0

/-- egui `Rect`, kept in `from_min_size` form (the only constructor the source uses). -/
structure Rect where
  min : Pos2
  size : Vec2
deriving DecidableEq

/-- egui `Rect::from_min_size`. -/
def Rect.from_min_size (min : Pos2) (size : Vec2) : Rect := ⟨min, size⟩

/-- egui `Modifiers` struct: five independent boolean fields. -/
structure EModifiers where
  alt : Bool
  ctrl : Bool
  shift : Bool
  mac_cmd : Bool
  command : Bool
deriving DecidableEq

/-- egui `Modifiers::default()`: all flags false. -/
def EModifiers.default : EModifiers := ⟨false, false, false, false, false⟩

/-- winit `ModifiersState` bitset, presented through its four accessors
`shift_key()`, `control_key()`, `alt_key()`, `super_key()`. -/
structure ModifiersState where
  shift_key : Bool
  control_key : Bool
  alt_key : Bool
  super_key : Bool
deriving DecidableEq

/-- winit `ModifiersState::empty()`. -/
def ModifiersState.empty : ModifiersState := ⟨false, false, false, false⟩

/-- egui `Key` enumeration, restricted to the variants reachable from
`winit_to_egui_key_code`: the named-key table targets and the letters
produced by `Key::from_name` on character input. -/
inductive EKey where
  | Escape | Insert | Home | Delete | End | PageDown | PageUp
  | ArrowLeft | ArrowUp | ArrowRight | ArrowDown
  | Backspace | Enter | Tab | Space
  | F1 | F2 | F3 | F4 | F5 | F6 | F7 | F8 | F9 | F10
  | F11 | F12 | F13 | F14 | F15 | F16 | F17 | F18 | F19 | F20
  | A | B | C | D | E | F | G | H | I | J | K | L | M
  | N | O | P | Q | R | S | T | U | V | W | X | Y | Z
deriving DecidableEq

/-- winit `NamedKey`, restricted to the variants the translation table
mentions; every other named key falls into the catch-all and is dropped. -/
inductive NamedKey where
  | Escape | Insert | Home | Delete | End | PageDown | PageUp
  | ArrowLeft | ArrowUp | ArrowRight | ArrowDown
  | Backspace | Enter | Tab | Space
  | F1 | F2 | F3 | F4 | F5 | F6 | F7 | F8 | F9 | F10
  | F11 | F12 | F13 | F14 | F15 | F16 | F17 | F18 | F19 | F20
  | OtherNamed
deriving DecidableEq

/-- winit `Key`: a named key, a typed character string, or anything else
(dead keys, unidentified keys), which the translator drops. -/
inductive WinitKey where
  | Named (k : NamedKey)
  | Character (s : String)
  | OtherKey
deriving DecidableEq

/-- Modelled from the egui dependency: `egui::Key::from_name`, on the fragment
reachable from winit `Key::Character` payloads — a single letter in either
case names the corresponding letter key; other strings have no key. -/
def EKey.from_name (s : String) : Option EKey :=
  match s with
  | "a" => some .A | "A" => some .A
  | "b" => some .B | "B" => some .B
  | "c" => some .C | "C" => some .C
  | "d" => some .D | "D" => some .D
  | "e" => some .E | "E" => some .E
  | "f" => some .F | "F" => some .F
  | "g" => some .G | "G" => some .G
  | "h" => some .H | "H" => some .H
  | "i" => some .I | "I" => some .I
  | "j" => some .J | "J" => some .J
  | "k" => some .K | "K" => some .K
  | "l" => some .L | "L" => some .L
  | "m" => some .M | "M" => some .M
  | "n" => some .N | "N" => some .N
  | "o" => some .O | "O" => some .O
  | "p" => some .P | "P" => some .P
  | "q" => some .Q | "Q" => some .Q
  | "r" => some .R | "R" => some .R
  | "s" => some .S | "S" => some .S
  | "t" => some .T | "T" => some .T
  | "u" => some .U | "U" => some .U
  | "v" => some .V | "V" => some .V
  | "w" => some .W | "W" => some .W
  | "x" => some .X | "X" => some .X
  | "y" => some .Y | "Y" => some .Y
  | "z" => some .Z | "Z" => some .Z
  | _ => none

/-- Source `winit_to_egui_key_code` (lines 411-453): the named-key table,
`Key::from_name` for character keys, and a dropping catch-all. -/
def winit_to_egui_key_code (key : WinitKey) : Option EKey :=
  match key with
  | .Named .Escape => some .Escape
  | .Named .Insert => some .Insert
  | .Named .Home => some .Home
  | .Named .Delete => some .Delete
  | .Named .End => some .End
  | .Named .PageDown => some .PageDown
  | .Named .PageUp => some .PageUp
  | .Named .ArrowLeft => some .ArrowLeft
  | .Named .ArrowUp => some .ArrowUp
  | .Named .ArrowRight => some .ArrowRight
  | .Named .ArrowDown => some .ArrowDown
  | .Named .Backspace => some .Backspace
  | .Named .Enter => some .Enter
  | .Named .Tab => some .Tab
  | .Named .Space => some .Space
  | .Named .F1 => some .F1
  | .Named .F2 => some .F2
  | .Named .F3 => some .F3
  | .Named .F4 => some .F4
  | .Named .F5 => some .F5
  | .Named .F6 => some .F6
  | .Named .F7 => some .F7
  | .Named .F8 => some .F8
  | .Named .F9 => some .F9
  | .Named .F10 => some .F10
  | .Named .F11 => some .F11
  | .Named .F12 => some .F12
  | .Named .F13 => some .F13
  | .Named .F14 => some .F14
  | .Named .F15 => some .F15
  | .Named .F16 => some .F16
  | .Named .F17 => some .F17
  | .Named .F18 => some .F18
  | .Named .F19 => some .F19
  | .Named .F20 => some .F20
  | .Named .OtherNamed => none
  | .Character c => EKey.from_name c
  | .OtherKey => none

/-- Source `winit_to_egui_modifiers` (lines 456-471).  The `#[cfg]` split on
the target OS is modelled by the `macos` flag.  Note that the source fills
the `command` field from `modifiers.super_key()` on BOTH cfg branches
(lines 465 and 469); only `mac_cmd` differs between the branches. -/
def winit_to_egui_modifiers (macos : Bool) (modifiers : ModifiersState) : EModifiers where
  alt := modifiers.alt_key
  ctrl := modifiers.control_key
  shift := modifiers.shift_key
  mac_cmd := if macos then modifiers.super_key else false
  command := if macos then modifiers.super_key else modifiers.super_key

/-- Source `is_printable` (lines 518-524): rejects the three Unicode
private-use-area ranges and ASCII control characters. -/
def is_printable (chr : Char) : Bool :=
  let n := chr.val.toNat
  let is_in_private_use_area :=
    (decide (0xe000 ≤ n) && decide (n ≤ 0xf8ff))
    || (decide (0xf0000 ≤ n) && decide (n ≤ 0xffffd))
    || (decide (0x100000 ≤ n) && decide (n ≤ 0x10fffd))
  !is_in_private_use_area && !(decide (n ≤ 0x1f) || decide (n = 0x7f))

/-- egui `PointerButton`, restricted to the variants the source produces. -/
inductive EPointerButton where
  | Primary | Secondary | Middle
deriving DecidableEq

/-- egui `TouchPhase`. -/
inductive ETouchPhase where
  | Start | Move | End | Cancel
deriving DecidableEq

/-- egui `Event`, restricted to the variants the source pushes.  The `Touch`
variant's `force` field is `Option` as in egui (the source always pushes
`Some`).  The `Key` variant omits `physical_key`, which the source always
sets to `None`.  The `Zoom` variant stores the EXPONENT of the zoom factor:
the source pushes `(delta.y / 200.0).exp()`, and since exp is transcendental
(not rational) and injective, the embedding keeps the argument
`delta.y / 200` exactly; the zoom factor is exp of the stored value. -/
inductive EguiEvent where
  | PointerButton (pos : Pos2) (button : EPointerButton) (pressed : Bool) (modifiers : EModifiers)
  | PointerMoved (pos : Pos2)
  | PointerGone
  | Touch (device_id : ℕ) (id : ℕ) (phase : ETouchPhase) (pos : Pos2) (force : Option ℚ)
  | Scroll (delta : Vec2)
  | Zoom (logFactor : ℚ)
  | Copy
  | Cut
  | Text (text : String)
  | Key (key : EKey) (pressed : Bool) (modifiers : EModifiers) (repeatFlag : Bool)
deriving DecidableEq

/-- winit `MouseButton`. -/
inductive MouseButton where
  | Left | Right | Middle | Back | Forward | Other (n : ℕ)
deriving DecidableEq

/-- winit `ElementState`. -/
inductive ElementState where
  | Pressed | Released
deriving DecidableEq

/-- winit `MouseScrollDelta`; line deltas are f32 pairs, pixel deltas a
physical position — both modelled as rational pairs. -/
inductive MouseScrollDelta where
  | LineDelta (x y : ℚ)
  | PixelDelta (x y : ℚ)
deriving DecidableEq

/-- winit `Force`; the `Calibrated` variant's extra fields
(`max_possible_force`, `altitude_angle`) are ignored by the source and
omitted here. -/
inductive Force where
  | Calibrated (force : ℚ)
  | Normalized (force : ℚ)
deriving DecidableEq

/-- winit `TouchPhase`. -/
inductive WTouchPhase where
  | Started | Moved | Ended | Cancelled
deriving DecidableEq

/-- winit `Touch` payload: opaque device handle (modelled as ℕ), touch id,
phase, physical-pixel location, optional force. -/
structure WTouch where
  device_id : ℕ
  id : ℕ
  phase : WTouchPhase
  location : Pos2
  force : Option Force
deriving DecidableEq

/-- winit `KeyEvent`, restricted to the fields the source reads:
`logical_key`, `state`, `text`. -/
structure KeyEvent where
  logical_key : WinitKey
  state : ElementState
  text : Option String
deriving DecidableEq

/-- winit `WindowEvent`, restricted to the variants the source matches;
everything else is the ignored catch-all. -/
inductive WindowEvent where
  | Resized (width height : ℕ)
  | ScaleFactorChanged (scale_factor : ℚ)
  | MouseInput (state : ElementState) (button : MouseButton)
  | Touch (touch : WTouch)
  | MouseWheel (delta : MouseScrollDelta)
  | CursorMoved (position : Pos2)
  | CursorLeft
  | ModifiersChanged (state : ModifiersState)
  | KeyboardInput (event : KeyEvent)
  | OtherWindowEvent
deriving DecidableEq

/-- winit `Event`: window events, device events (ignored), and the ignored
catch-all. -/
inductive WinitEvent where
  | WindowEvent (event : WindowEvent)
  | DeviceEvent
  | OtherEvent
deriving DecidableEq

/-- egui `RawInput`, restricted to the fields the source writes. -/
structure RawInput where
  screen_rect : Option Rect
  modifiers : EModifiers
  events : List EguiEvent
  time : Option ℚ
deriving DecidableEq

/-- The `Platform` state (source lines 59-77).  `touch_pointer_pressed` is a
`u32` in the source; it is modelled as an integer so that non-negativity is
a provable invariant rather than a typing artefact.  `diagnostics` counts
the `eprintln!` diagnostic emitted on unbalanced touch end events.
`clipboard` models the cfg-gated `Option<ClipboardContext>` as an optional
capability holding the current clipboard contents. -/
structure Platform where
  scale_factor : ℚ
  raw_input : RawInput
  modifier_state : ModifiersState
  pointer_pos : Option Pos2
  clipboard : Option String
  touch_pointer_pressed : ℤ
  device_indices : List (ℕ × ℕ)
  next_device_index : ℕ
  diagnostics : ℕ
deriving DecidableEq

/-- Source `PlatformDescriptor` (lines 23-34); the font and style fields are
opaque pass-through to the renderer and are omitted from the model. -/
structure PlatformDescriptor where
  physical_width : ℕ
  physical_height : ℕ
  scale_factor : ℚ
deriving DecidableEq

/-- Source `Platform::new` (lines 81-109): initial screen rectangle from the
descriptor, empty modifiers, pointer position `Some(Pos2::default())`,
zero press count, empty device registry with next index 1. -/
def Platform.new (descriptor : PlatformDescriptor) : Platform where
  scale_factor := descriptor.scale_factor
  raw_input :=
    { screen_rect := some (Rect.from_min_size Pos2.default
        ((vec2 (descriptor.physical_width : ℚ) (descriptor.physical_height : ℚ)).divScalar
          descriptor.scale_factor))
      modifiers := EModifiers.default
      events := []
      time := none }
  modifier_state := ModifiersState.empty
  pointer_pos := some Pos2.default
  clipboard := none
  touch_pointer_pressed := 0
  device_indices := []
  next_device_index := 1
  diagnostics := 0

/-- Lookup (`HashMap::get`) on the device registry, modelled on an association list. -/
def lookupDevice (m : List (ℕ × ℕ)) (d : ℕ) : Option ℕ :=
  match m with
  | [] => none
  | (k, v) :: rest => if k = d then some v else lookupDevice rest d

/-- The device index the touch branch uses (source lines 163-171): the
previously assigned index if the handle was seen, else the next fresh index. -/
def resolve_index (m : List (ℕ × ℕ)) (next : ℕ) (d : ℕ) : ℕ :=
  match lookupDevice m d with
  | some i => i
  | none => next

/-- The device registry after the touch branch: unchanged for a seen handle,
extended with the fresh assignment for an unseen one. -/
def inserted_indices (m : List (ℕ × ℕ)) (next : ℕ) (d : ℕ) : List (ℕ × ℕ) :=
  match lookupDevice m d with
  | some _ => m
  | none => (d, next) :: m

/-- The next free index after the touch branch: incremented exactly when a
fresh index was handed out. -/
def next_index_after (m : List (ℕ × ℕ)) (next : ℕ) (d : ℕ) : ℕ :=
  match lookupDevice m d with
  | some _ => next
  | none => next + 1

/-- Logical touch position (source lines 158-161): physical location divided
by the current scale factor. -/
def touch_pos (scale_factor : ℚ) (touch : WTouch) : Pos2 :=
  pos2 (touch.location.x / scale_factor) (touch.location.y / scale_factor)

/-- Force translation (source lines 179-183); an unreported force becomes 0. -/
def touch_force (force : Option Force) : ℚ :=
  match force with
  | some (.Calibrated f) => f
  | some (.Normalized f) => f
  | none => 0

/-- Touch phase translation (source lines 172-177). -/
def winit_to_egui_phase (phase : WTouchPhase) : ETouchPhase :=
  match phase with
  | .Started => .Start
  | .Moved => .Move
  | .Ended => .End
  | .Cancelled => .Cancel

/-- Mouse button translation (source lines 140-145). -/
def winit_to_egui_mouse_button (button : MouseButton) : Option EPointerButton :=
  match button with
  | .Left => some .Primary
  | .Right => some .Secondary
  | .Middle => some .Middle
  | _ => none

/-- Appends events to the pending queue (`self.raw_input.events.push`). -/
def Platform.push_events (p : Platform) (es : List EguiEvent) : Platform :=
  { p with raw_input := { p.raw_input with events := p.raw_input.events ++ es } }

/-- Source `Platform::handle_event` (lines 112-330).  The compile-time
`cfg!(target_os = "macos")` test in the wheel branch and the cfg split in
the modifier translation are modelled by the `macos` flag.  The `u32`
`checked_sub(1).unwrap_or_else(diagnostic; 0)` of the touch branch becomes
the zero test with a diagnostic count bump, which agrees with `checked_sub`
on every value a `u32` can take. -/
def handle_event (macos : Bool) (p : Platform) (winit_event : WinitEvent) : Platform :=
  match winit_event with
  | .WindowEvent event =>
    match event with
    | .Resized 0 0 => p
    | .Resized width height =>
        let screen_rect := Rect.from_min_size Pos2.default
          ((vec2 (width : ℚ) (height : ℚ)).divScalar p.scale_factor)
        { p with raw_input := { p.raw_input with screen_rect := some screen_rect } }
    | .ScaleFactorChanged scale_factor =>
        { p with scale_factor := scale_factor }
    | .MouseInput state button =>
        match winit_to_egui_mouse_button button with
        | some b =>
          match p.pointer_pos with
          | some pointer_pos =>
              p.push_events [EguiEvent.PointerButton pointer_pos b
                (decide (state = ElementState.Pressed)) EModifiers.default]
          | none => p
        | none => p
    | .Touch touch =>
        let pointer_pos := touch_pos p.scale_factor touch
        let device_id := resolve_index p.device_indices p.next_device_index touch.device_id
        let device_indices := inserted_indices p.device_indices p.next_device_index touch.device_id
        let next_device_index := next_index_after p.device_indices p.next_device_index touch.device_id
        let egui_phase := winit_to_egui_phase touch.phase
        let force := touch_force touch.force
        let events0 := p.raw_input.events ++
          [EguiEvent.Touch device_id touch.id egui_phase pointer_pos (some force)]
        let was_pressed := decide (0 < p.touch_pointer_pressed)
        let step :=
          match touch.phase with
          | .Started => (p.touch_pointer_pressed + 1, p.diagnostics, events0)
          | .Ended | .Cancelled =>
              if p.touch_pointer_pressed = 0 then (0, p.diagnostics + 1, events0)
              else (p.touch_pointer_pressed - 1, p.diagnostics, events0)
          | .Moved => (p.touch_pointer_pressed, p.diagnostics,
              events0 ++ [EguiEvent.PointerMoved pointer_pos])
        let touch_pointer_pressed := step.1
        let diagnostics := step.2.1
        let events1 := step.2.2
        let events2 :=
          if !was_pressed && decide (0 < touch_pointer_pressed) then
            events1 ++ [EguiEvent.PointerButton pointer_pos EPointerButton.Primary true
              EModifiers.default]
          else if was_pressed && decide (touch_pointer_pressed = 0) then
            events1 ++ [EguiEvent.PointerButton pointer_pos EPointerButton.Primary false
              EModifiers.default, EguiEvent.PointerGone]
          else events1
        { p with raw_input := { p.raw_input with events := events2 },
                 touch_pointer_pressed := touch_pointer_pressed,
                 diagnostics := diagnostics,
                 device_indices := device_indices,
                 next_device_index := next_device_index }
    | .MouseWheel delta =>
        let d0 :=
          match delta with
          | .LineDelta x y => (vec2 x y).mulScalar 8
          | .PixelDelta x y => vec2 x y
        let d := if macos then vec2 (-1 * d0.x) d0.y else d0
        if p.raw_input.modifiers.ctrl || p.raw_input.modifiers.command then
          p.push_events [EguiEvent.Zoom (d.y / 200)]
        else
          p.push_events [EguiEvent.Scroll d]
    | .CursorMoved position =>
        let pointer_pos := pos2 (position.x / p.scale_factor) (position.y / p.scale_factor)
        { p.push_events [EguiEvent.PointerMoved pointer_pos] with pointer_pos := some pointer_pos }
    | .CursorLeft =>
        { p.push_events [EguiEvent.PointerGone] with pointer_pos := none }
    | .ModifiersChanged input =>
        { p with modifier_state := input,
                 raw_input := { p.raw_input with modifiers := winit_to_egui_modifiers macos input } }
    | .KeyboardInput event =>
        let pressed := decide (event.state = ElementState.Pressed)
        let ctrl := p.modifier_state.control_key
        let p1 :=
          if pressed && !(p.modifier_state.control_key || p.modifier_state.super_key) then
            match event.text with
            | some ch =>
                let str : String := String.mk (ch.data.filter is_printable)
                if str.isEmpty then p else p.push_events [EguiEvent.Text str]
            | none => p
          else p
        match winit_to_egui_key_code event.logical_key with
        | some key =>
          match pressed, ctrl, key with
          | true, true, EKey.C => p1.push_events [EguiEvent.Copy]
          | true, true, EKey.X => p1.push_events [EguiEvent.Cut]
          | true, true, EKey.V =>
              match p1.clipboard with
              | some contents => p1.push_events [EguiEvent.Text contents]
              | none => p1
          | _, _, _ =>
              p1.push_events [EguiEvent.Key key pressed
                (winit_to_egui_modifiers macos p.modifier_state) false]
        | none => p1
    | .OtherWindowEvent => p
  | .DeviceEvent => p
  | .OtherEvent => p

/-- Processing a list of native events in arrival order. -/
def handle_events (macos : Bool) (p : Platform) (events : List WinitEvent) : Platform :=
  events.foldl (handle_event macos) p

/-- A freshly constructed platform after a sequence of native touch events. -/
def touch_run (macos : Bool) (descriptor : PlatformDescriptor) (ts : List WTouch) : Platform :=
  handle_events macos (Platform.new descriptor)
    (ts.map (fun t => WinitEvent.WindowEvent (WindowEvent.Touch t)))

/-- The pressed state of the emulated touch pointer as the renderer observes
it: the pressed flag of the last synthetic primary-button event in the
queue, initially not pressed. -/
def pressed_upd (acc : Bool) (e : EguiEvent) : Bool :=
  match e with
  | EguiEvent.PointerButton _ EPointerButton.Primary pressed _ => pressed
  | _ => acc

/-- Fold of `pressed_upd` over a whole event queue. -/
def pressed_after (events : List EguiEvent) : Bool :=
  events.foldl pressed_upd false

/-! ## Concrete fixtures used by witnesses and counterexamples -/

/-- A concrete descriptor: an 800 by 600 window at scale factor 1. -/
def descr0 : PlatformDescriptor :=
  { physical_width := 800, physical_height := 600, scale_factor := 1 }

/-- A concrete touch-start at physical position (10, 20) from device handle 5. -/
def tStart : WTouch :=
  { device_id := 5, id := 7, phase := WTouchPhase.Started,
    location := { x := 10, y := 20 }, force := none }

/-- A concrete touch-end at physical position (12, 24) from device handle 5. -/
def tEnd : WTouch :=
  { device_id := 5, id := 7, phase := WTouchPhase.Ended,
    location := { x := 12, y := 24 }, force := none }

/-- A concrete touch-move at physical position (10, 20) from device handle 5. -/
def tMove : WTouch :=
  { device_id := 5, id := 7, phase := WTouchPhase.Moved,
    location := { x := 10, y := 20 }, force := none }

/-! ## Helper lemmas -/

/-- The raw touch event the touch branch pushes first. -/
def raw_touch_event (p : Platform) (t : WTouch) : EguiEvent :=
  EguiEvent.Touch (resolve_index p.device_indices p.next_device_index t.device_id) t.id
    (winit_to_egui_phase t.phase) (touch_pos p.scale_factor t) (some (touch_force t.force))

lemma aux_push_events_raw (p : Platform) (es : List EguiEvent) :
    (p.push_events es).raw_input.events = p.raw_input.events ++ es := rfl

/-- A touch start seen while no touch is active pushes the raw touch event and
the synthetic press, and sets the counter to one. -/
lemma aux_touch_started_from_zero (macos : Bool) (p : Platform) (t : WTouch)
    (ht : t.phase = WTouchPhase.Started) (h0 : p.touch_pointer_pressed = 0) :
    handle_event macos p (.WindowEvent (.Touch t)) =
    { p with
      raw_input := { p.raw_input with events := p.raw_input.events ++ [raw_touch_event p t, EguiEvent.PointerButton (touch_pos p.scale_factor t) EPointerButton.Primary true EModifiers.default] },
      touch_pointer_pressed := 1,
      device_indices := inserted_indices p.device_indices p.next_device_index t.device_id,
      next_device_index := next_index_after p.device_indices p.next_device_index t.device_id } := by
  obtain ⟨dev, id, ph, loc, fo⟩ := t
  simp only at ht
  subst ht
  simp [handle_event, raw_touch_event, h0, List.append_assoc]

/-- A touch start seen while touches are active pushes only the raw touch
event and increments the counter. -/
lemma aux_touch_started_pos (macos : Bool) (p : Platform) (t : WTouch)
    (ht : t.phase = WTouchPhase.Started) (h0 : 0 < p.touch_pointer_pressed) :
    handle_event macos p (.WindowEvent (.Touch t)) =
    { p with
      raw_input := { p.raw_input with events := p.raw_input.events ++ [raw_touch_event p t] },
      touch_pointer_pressed := p.touch_pointer_pressed + 1,
      device_indices := inserted_indices p.device_indices p.next_device_index t.device_id,
      next_device_index := next_index_after p.device_indices p.next_device_index t.device_id } := by
  obtain ⟨dev, id, ph, loc, fo⟩ := t
  simp only at ht
  subst ht
  have h1 : p.touch_pointer_pressed + 1 ≠ 0 := by omega
  simp [handle_event, raw_touch_event, h0, h1]

/-- A touch end or cancel seen while exactly one touch is active pushes the
raw touch event, then the synthetic release, then pointer-gone, and zeroes
the counter. -/
lemma aux_touch_ended_to_zero (macos : Bool) (p : Platform) (t : WTouch)
    (ht : t.phase = WTouchPhase.Ended ∨ t.phase = WTouchPhase.Cancelled)
    (h1 : p.touch_pointer_pressed = 1) :
    handle_event macos p (.WindowEvent (.Touch t)) =
    { p with
      raw_input := { p.raw_input with events := p.raw_input.events ++ [raw_touch_event p t, EguiEvent.PointerButton (touch_pos p.scale_factor t) EPointerButton.Primary false EModifiers.default, EguiEvent.PointerGone] },
      touch_pointer_pressed := 0,
      device_indices := inserted_indices p.device_indices p.next_device_index t.device_id,
      next_device_index := next_index_after p.device_indices p.next_device_index t.device_id } := by
  obtain ⟨dev, id, ph, loc, fo⟩ := t
  simp only at ht
  rcases ht with ht | ht <;> subst ht <;>
    simp [handle_event, raw_touch_event, h1, List.append_assoc]

/-- A touch end or cancel seen while several touches are active pushes only
the raw touch event and decrements the counter. -/
lemma aux_touch_ended_pos (macos : Bool) (p : Platform) (t : WTouch)
    (ht : t.phase = WTouchPhase.Ended ∨ t.phase = WTouchPhase.Cancelled)
    (h1 : 1 < p.touch_pointer_pressed) :
    handle_event macos p (.WindowEvent (.Touch t)) =
    { p with
      raw_input := { p.raw_input with events := p.raw_input.events ++ [raw_touch_event p t] },
      touch_pointer_pressed := p.touch_pointer_pressed - 1,
      device_indices := inserted_indices p.device_indices p.next_device_index t.device_id,
      next_device_index := next_index_after p.device_indices p.next_device_index t.device_id } := by
  obtain ⟨dev, id, ph, loc, fo⟩ := t
  simp only at ht
  have hne : p.touch_pointer_pressed ≠ 0 := by omega
  have hpos : 0 < p.touch_pointer_pressed := by omega
  have hne1 : p.touch_pointer_pressed - 1 ≠ 0 := by omega
  rcases ht with ht | ht <;> subst ht <;>
    simp [handle_event, raw_touch_event, hne, hpos, hne1]

/-- A touch end or cancel seen while the counter is zero clamps the counter
at zero, bumps the diagnostics count, and pushes only the raw touch event. -/
lemma aux_touch_ended_zero (macos : Bool) (p : Platform) (t : WTouch)
    (ht : t.phase = WTouchPhase.Ended ∨ t.phase = WTouchPhase.Cancelled)
    (h0 : p.touch_pointer_pressed = 0) :
    handle_event macos p (.WindowEvent (.Touch t)) =
    { p with
      raw_input := { p.raw_input with events := p.raw_input.events ++ [raw_touch_event p t] },
      touch_pointer_pressed := 0,
      diagnostics := p.diagnostics + 1,
      device_indices := inserted_indices p.device_indices p.next_device_index t.device_id,
      next_device_index := next_index_after p.device_indices p.next_device_index t.device_id } := by
  obtain ⟨dev, id, ph, loc, fo⟩ := t
  simp only at ht
  rcases ht with ht | ht <;> subst ht <;>
    simp [handle_event, raw_touch_event, h0]

/-- A touch move pushes the raw touch event followed by a pointer-moved event
and leaves the counter, diagnostics and press emulation alone. -/
lemma aux_touch_moved (macos : Bool) (p : Platform) (t : WTouch)
    (ht : t.phase = WTouchPhase.Moved) :
    handle_event macos p (.WindowEvent (.Touch t)) =
    { p with
      raw_input := { p.raw_input with events := p.raw_input.events ++ [raw_touch_event p t, EguiEvent.PointerMoved (touch_pos p.scale_factor t)] },
      device_indices := inserted_indices p.device_indices p.next_device_index t.device_id,
      next_device_index := next_index_after p.device_indices p.next_device_index t.device_id } := by
  obtain ⟨dev, id, ph, loc, fo⟩ := t
  simp only at ht
  subst ht
  by_cases hc : 0 < p.touch_pointer_pressed
  · have hne : p.touch_pointer_pressed ≠ 0 := by omega
    simp [handle_event, raw_touch_event, hc, hne, List.append_assoc]
  · simp [handle_event, raw_touch_event, hc, List.append_assoc]

/-! ## Claim C10 -/

/-- Claim C10: on a freshly constructed platform, before any cursor event,
the tracked pointer position is `Some` of the origin rather than `None`, so a
mapped mouse-button event arriving first thing is enqueued at (0,0) instead
of being dropped. -/
theorem C10_initial_pointer_at_origin (descriptor : PlatformDescriptor) (macos : Bool)
    (state : ElementState) :
    (Platform.new descriptor).pointer_pos = some Pos2.default
    ∧ (handle_event macos (Platform.new descriptor)
        (.WindowEvent (.MouseInput state .Left))).raw_input.events
      = [EguiEvent.PointerButton Pos2.default EPointerButton.Primary
          (decide (state = ElementState.Pressed)) EModifiers.default] := by
  constructor
  · rfl
  · simp [handle_event, Platform.new, winit_to_egui_mouse_button, Platform.push_events]

/-! ## Claim C7 -/

/-- Claim C7: a mouse-button event for a button outside primary, secondary
and middle leaves the platform untouched; for a mapped button, with a tracked
pointer position exactly one button event at that position with the event's
pressed state is enqueued, and with no tracked position the queue is
unchanged. -/
theorem C7_mouse_button_handling (macos : Bool) (p : Platform) (state : ElementState)
    (button : MouseButton) :
    ((button ≠ MouseButton.Left ∧ button ≠ MouseButton.Right ∧ button ≠ MouseButton.Middle) →
      handle_event macos p (.WindowEvent (.MouseInput state button)) = p)
    ∧ (∀ b, winit_to_egui_mouse_button button = some b →
        (p.pointer_pos = none →
          (handle_event macos p (.WindowEvent (.MouseInput state button))).raw_input.events
            = p.raw_input.events)
        ∧ (∀ pos, p.pointer_pos = some pos →
            (handle_event macos p (.WindowEvent (.MouseInput state button))).raw_input.events
              = p.raw_input.events ++ [EguiEvent.PointerButton pos b
                  (decide (state = ElementState.Pressed)) EModifiers.default])) := by
  constructor
  · intro ⟨h1, h2, h3⟩
    cases button <;> simp_all [handle_event, winit_to_egui_mouse_button]
  · intro b hb
    constructor
    · intro hnone
      cases button <;> simp_all [handle_event, winit_to_egui_mouse_button]
    · intro pos hpos
      cases button <;>
        simp_all [handle_event, winit_to_egui_mouse_button, Platform.push_events]

/-- Witness for C7: on a pointerless platform a left press changes nothing,
and an other-button press is entirely ignored. -/
theorem C7_mouse_button_handling_witness :
    (handle_event false { Platform.new descr0 with pointer_pos := none }
        (.WindowEvent (.MouseInput ElementState.Pressed MouseButton.Left))).raw_input.events
      = ({ Platform.new descr0 with pointer_pos := none } : Platform).raw_input.events
    ∧ handle_event false (Platform.new descr0)
        (.WindowEvent (.MouseInput ElementState.Pressed (MouseButton.Other 9)))
      = Platform.new descr0 := by
  constructor
  · exact (((C7_mouse_button_handling false { Platform.new descr0 with pointer_pos := none }
      ElementState.Pressed MouseButton.Left).2 EPointerButton.Primary rfl).1 rfl)
  · exact ((C7_mouse_button_handling false (Platform.new descr0)
      ElementState.Pressed (MouseButton.Other 9)).1 ⟨by simp, by simp, by simp⟩)

/-! ## Claim C1 -/

/-- Claim C1: a touch start followed by a touch end, processed while no touch
is active, appends exactly: the raw touch-start event, a synthetic primary
press, the raw touch-end event, a synthetic primary release at the touch
position, and a pointer-gone event, in this order. -/
theorem C1_touch_start_end_event_order (macos : Bool) (p : Platform)
    (h : p.touch_pointer_pressed = 0) (t1 t2 : WTouch)
    (h1 : t1.phase = WTouchPhase.Started) (h2 : t2.phase = WTouchPhase.Ended) :
    ∃ d1 d2 : ℕ,
      (handle_event macos (handle_event macos p (.WindowEvent (.Touch t1)))
          (.WindowEvent (.Touch t2))).raw_input.events
        = p.raw_input.events ++
          [EguiEvent.Touch d1 t1.id ETouchPhase.Start (touch_pos p.scale_factor t1)
             (some (touch_force t1.force)),
           EguiEvent.PointerButton (touch_pos p.scale_factor t1) EPointerButton.Primary true
             EModifiers.default,
           EguiEvent.Touch d2 t2.id ETouchPhase.End (touch_pos p.scale_factor t2)
             (some (touch_force t2.force)),
           EguiEvent.PointerButton (touch_pos p.scale_factor t2) EPointerButton.Primary false
             EModifiers.default,
           EguiEvent.PointerGone] := by
  rw [aux_touch_started_from_zero macos p t1 h1 h]
  rw [aux_touch_ended_to_zero macos _ t2 (Or.inl h2) rfl]
  refine ⟨resolve_index p.device_indices p.next_device_index t1.device_id,
    resolve_index (inserted_indices p.device_indices p.next_device_index t1.device_id)
      (next_index_after p.device_indices p.next_device_index t1.device_id) t2.device_id, ?_⟩
  simp [raw_touch_event, h1, h2, winit_to_egui_phase, List.append_assoc]

/-- Witness for C1 at the concrete start/end fixture on a fresh platform. -/
theorem C1_touch_start_end_event_order_witness :
    (Platform.new descr0).touch_pointer_pressed = 0
    ∧ tStart.phase = WTouchPhase.Started ∧ tEnd.phase = WTouchPhase.Ended
    ∧ ∃ d1 d2 : ℕ,
      (handle_event false (handle_event false (Platform.new descr0)
          (.WindowEvent (.Touch tStart))) (.WindowEvent (.Touch tEnd))).raw_input.events
        = (Platform.new descr0).raw_input.events ++
          [EguiEvent.Touch d1 tStart.id ETouchPhase.Start
             (touch_pos (Platform.new descr0).scale_factor tStart)
             (some (touch_force tStart.force)),
           EguiEvent.PointerButton (touch_pos (Platform.new descr0).scale_factor tStart)
             EPointerButton.Primary true EModifiers.default,
           EguiEvent.Touch d2 tEnd.id ETouchPhase.End
             (touch_pos (Platform.new descr0).scale_factor tEnd)
             (some (touch_force tEnd.force)),
           EguiEvent.PointerButton (touch_pos (Platform.new descr0).scale_factor tEnd)
             EPointerButton.Primary false EModifiers.default,
           EguiEvent.PointerGone] :=
  ⟨rfl, rfl, rfl,
    C1_touch_start_end_event_order false (Platform.new descr0) rfl tStart tEnd rfl rfl⟩

/-! ## Claim C5 -/

/-- Counterexample to claim C5 as stated: on a fresh platform the press
counter is zero (no touch is active), the counter stays zero across a touch
move, and yet the move enqueues a pointer-moved event. -/
theorem C5_counterexample :
    (Platform.new descr0).touch_pointer_pressed = 0
    ∧ (handle_event false (Platform.new descr0)
        (.WindowEvent (.Touch tMove))).touch_pointer_pressed = 0
    ∧ EguiEvent.PointerMoved (touch_pos 1 tMove)
        ∈ (handle_event false (Platform.new descr0)
            (.WindowEvent (.Touch tMove))).raw_input.events := by
  refine ⟨rfl, ?_, ?_⟩
  · rw [aux_touch_moved false (Platform.new descr0) tMove rfl]
    rfl
  · rw [aux_touch_moved false (Platform.new descr0) tMove rfl]
    simp [Platform.new, descr0]

/-- Claim C5 (amended): a touch move enqueues the raw touch event followed by
a pointer-moved event at the touch position unconditionally — whether or not
any touch contact is active — and leaves the press counter unchanged. -/
theorem C5_touch_move_always_moves (macos : Bool) (p : Platform) (t : WTouch)
    (ht : t.phase = WTouchPhase.Moved) :
    (handle_event macos p (.WindowEvent (.Touch t))).raw_input.events
      = p.raw_input.events ++
        [EguiEvent.Touch (resolve_index p.device_indices p.next_device_index t.device_id)
           t.id ETouchPhase.Move (touch_pos p.scale_factor t) (some (touch_force t.force)),
         EguiEvent.PointerMoved (touch_pos p.scale_factor t)]
    ∧ (handle_event macos p (.WindowEvent (.Touch t))).touch_pointer_pressed
      = p.touch_pointer_pressed := by
  rw [aux_touch_moved macos p t ht]
  refine ⟨?_, rfl⟩
  simp [raw_touch_event, ht, winit_to_egui_phase]

/-- Witness for the amended C5 at the concrete move fixture while the counter
is zero. -/
theorem C5_touch_move_always_moves_witness :
    tMove.phase = WTouchPhase.Moved
    ∧ ((handle_event false (Platform.new descr0) (.WindowEvent (.Touch tMove))).raw_input.events
        = (Platform.new descr0).raw_input.events ++
          [EguiEvent.Touch (resolve_index (Platform.new descr0).device_indices
              (Platform.new descr0).next_device_index tMove.device_id)
             tMove.id ETouchPhase.Move (touch_pos (Platform.new descr0).scale_factor tMove)
             (some (touch_force tMove.force)),
           EguiEvent.PointerMoved (touch_pos (Platform.new descr0).scale_factor tMove)]
       ∧ (handle_event false (Platform.new descr0)
            (.WindowEvent (.Touch tMove))).touch_pointer_pressed
          = (Platform.new descr0).touch_pointer_pressed) :=
  ⟨rfl, C5_touch_move_always_moves false (Platform.new descr0) tMove rfl⟩

/-! ## Claim C6 -/

/-- Counterexample to claim C6 as stated: on macOS, a line delta (1, 2) with
no command modifier active yields the scroll event (-8, 16), not the claimed
converted delta (8, 16) — the horizontal component is negated. -/
theorem C6_counterexample :
    (Platform.new descr0).raw_input.modifiers.ctrl = false
    ∧ (Platform.new descr0).raw_input.modifiers.command = false
    ∧ (handle_event true (Platform.new descr0)
        (.WindowEvent (.MouseWheel (.LineDelta 1 2)))).raw_input.events
      = [EguiEvent.Scroll (vec2 (-8) 16)]
    ∧ vec2 (-8) 16 ≠ vec2 8 16 := by
  refine ⟨rfl, rfl, ?_, ?_⟩
  · norm_num [handle_event, Platform.new, descr0, Vec2.mulScalar, vec2,
      Platform.push_events, EModifiers.default]
  · norm_num [vec2]

/-- Claim C6 (amended): a line delta (x, y) is converted to (8x, 8y) and a
pixel delta used as-is; on macOS the horizontal component is then negated;
with ctrl or the command modifier active exactly one zoom event whose factor
is exp of the stored exponent (vertical delta / 200) is enqueued and no
scroll event, otherwise exactly one scroll event with the (possibly
negated) converted delta. -/
theorem C6_mouse_wheel_behaviour (macos : Bool) (p q : Platform) (x y px py : ℚ)
    (hpc : p.raw_input.modifiers.ctrl = false) (hpk : p.raw_input.modifiers.command = false)
    (hq : q.raw_input.modifiers.ctrl = true ∨ q.raw_input.modifiers.command = true) :
    (handle_event macos p (.WindowEvent (.MouseWheel (.LineDelta x y)))).raw_input.events
      = p.raw_input.events ++
        [EguiEvent.Scroll (vec2 (if macos then -(x * 8) else x * 8) (y * 8))]
    ∧ (handle_event macos p (.WindowEvent (.MouseWheel (.PixelDelta px py)))).raw_input.events
      = p.raw_input.events ++ [EguiEvent.Scroll (vec2 (if macos then -px else px) py)]
    ∧ (handle_event macos q (.WindowEvent (.MouseWheel (.LineDelta x y)))).raw_input.events
      = q.raw_input.events ++ [EguiEvent.Zoom (y * 8 / 200)]
    ∧ (handle_event macos q (.WindowEvent (.MouseWheel (.PixelDelta px py)))).raw_input.events
      = q.raw_input.events ++ [EguiEvent.Zoom (py / 200)] := by
  have hzoom : (q.raw_input.modifiers.ctrl || q.raw_input.modifiers.command) = true := by
    rcases hq with hq | hq <;> simp [hq]
  refine ⟨?_, ?_, ?_, ?_⟩ <;>
    cases macos <;>
      simp [handle_event, Vec2.mulScalar, vec2, hpc, hpk, hzoom, Platform.push_events]

/-- A platform whose tracked modifier state has only ctrl set, obtained by a
modifiers-changed notification on a fresh platform. -/
def pCtrl : Platform :=
  handle_event false (Platform.new descr0)
    (.WindowEvent (.ModifiersChanged
      { shift_key := false, control_key := true, alt_key := false, super_key := false }))

/-- Witness for the amended C6: line delta (1, 2) and pixel delta (3, 4) on a
non-macOS platform, without and with the ctrl modifier. -/
theorem C6_mouse_wheel_behaviour_witness :
    (Platform.new descr0).raw_input.modifiers.ctrl = false
    ∧ (Platform.new descr0).raw_input.modifiers.command = false
    ∧ pCtrl.raw_input.modifiers.ctrl = true
    ∧ ((handle_event false (Platform.new descr0)
          (.WindowEvent (.MouseWheel (.LineDelta 1 2)))).raw_input.events
        = (Platform.new descr0).raw_input.events ++
          [EguiEvent.Scroll (vec2 (if false then -(1 * 8) else 1 * 8) (2 * 8))]
      ∧ (handle_event false (Platform.new descr0)
          (.WindowEvent (.MouseWheel (.PixelDelta 3 4)))).raw_input.events
        = (Platform.new descr0).raw_input.events ++
          [EguiEvent.Scroll (vec2 (if false then -3 else 3) 4)]
      ∧ (handle_event false pCtrl
          (.WindowEvent (.MouseWheel (.LineDelta 1 2)))).raw_input.events
        = pCtrl.raw_input.events ++ [EguiEvent.Zoom (2 * 8 / 200)]
      ∧ (handle_event false pCtrl
          (.WindowEvent (.MouseWheel (.PixelDelta 3 4)))).raw_input.events
        = pCtrl.raw_input.events ++ [EguiEvent.Zoom (4 / 200)]) :=
  ⟨rfl, rfl, rfl,
    C6_mouse_wheel_behaviour false (Platform.new descr0) pCtrl 1 2 3 4 rfl rfl (Or.inl rfl)⟩

/-! ## Claim C3 -/

/-- Claim C3 evaluated on the code: contrary to the specified behaviour, on a
non-macOS platform the generic command field is filled from the super bit,
not the ctrl bit — ctrl alone yields `command = false` and super alone
yields `command = true` — while alt, ctrl and shift do map independently
from their own native bits on every platform. -/
theorem C3_command_field_from_super_bit :
    (winit_to_egui_modifiers false
      { shift_key := false, control_key := true, alt_key := false, super_key := false }).command
      = false
    ∧ (winit_to_egui_modifiers false
      { shift_key := false, control_key := false, alt_key := false, super_key := true }).command
      = true
    ∧ ∀ (macos : Bool) (m : ModifiersState),
        (winit_to_egui_modifiers macos m).alt = m.alt_key
        ∧ (winit_to_egui_modifiers macos m).ctrl = m.control_key
        ∧ (winit_to_egui_modifiers macos m).shift = m.shift_key
        ∧ (winit_to_egui_modifiers true m).mac_cmd = m.super_key
        ∧ (winit_to_egui_modifiers true m).command = m.super_key :=
  ⟨rfl, rfl, fun _ _ => ⟨rfl, rfl, rfl, rfl, rfl⟩⟩

/-! ## Claim C8 -/

/-- Claim C8: with the ctrl modifier tracked as active and a pressed key
event, a key translating to C enqueues exactly one copy event (and nothing
else, in particular no generic key event), a key translating to X enqueues
exactly one cut event, and a key translating to V never enqueues a generic
key event. -/
theorem C8_ctrl_shortcut_events (macos : Bool) (p : Platform) (e : KeyEvent)
    (hctrl : p.modifier_state.control_key = true) (hpr : e.state = ElementState.Pressed) :
    (winit_to_egui_key_code e.logical_key = some EKey.C →
      (handle_event macos p (.WindowEvent (.KeyboardInput e))).raw_input.events
        = p.raw_input.events ++ [EguiEvent.Copy])
    ∧ (winit_to_egui_key_code e.logical_key = some EKey.X →
      (handle_event macos p (.WindowEvent (.KeyboardInput e))).raw_input.events
        = p.raw_input.events ++ [EguiEvent.Cut])
    ∧ (winit_to_egui_key_code e.logical_key = some EKey.V →
      ∀ ev ∈ ((handle_event macos p (.WindowEvent (.KeyboardInput e))).raw_input.events).drop
          p.raw_input.events.length,
        ∀ (k : EKey) (pr2 : Bool) (m : EModifiers) (r : Bool),
          ev ≠ EguiEvent.Key k pr2 m r) := by
  refine ⟨?_, ?_, ?_⟩ <;> intro hk
  · simp [handle_event, hk, hctrl, hpr, Platform.push_events]
  · simp [handle_event, hk, hctrl, hpr, Platform.push_events]
  · intro ev hmem k pr2 m r
    rcases hcl : p.clipboard with _ | contents <;>
      simp [handle_event, hk, hctrl, hpr, hcl, Platform.push_events,
        List.drop_length, List.drop_left] at hmem <;> simp [hmem]

/-- The concrete ctrl-C key event: typed character "c" while ctrl is down. -/
def keyC : KeyEvent :=
  { logical_key := WinitKey.Character "c", state := ElementState.Pressed, text := some "c" }

/-- Witness for C8: pressing ctrl plus the character "c" on a platform whose
tracked modifiers have ctrl set yields exactly one copy event. -/
theorem C8_ctrl_shortcut_events_witness :
    pCtrl.modifier_state.control_key = true
    ∧ keyC.state = ElementState.Pressed
    ∧ winit_to_egui_key_code keyC.logical_key = some EKey.C
    ∧ (handle_event false pCtrl (.WindowEvent (.KeyboardInput keyC))).raw_input.events
      = pCtrl.raw_input.events ++ [EguiEvent.Copy] :=
  ⟨rfl, rfl, rfl,
    (C8_ctrl_shortcut_events false pCtrl keyC rfl rfl).1 rfl⟩

/-! ## Claim C4 -/

/-- Counterexample to claim C4 as stated: after a modifiers-changed
notification reporting ctrl down, a mouse press is enqueued carrying the
DEFAULT (all-false) modifiers, not the translation of the tracked modifier
state. -/
theorem C4_counterexample :
    pCtrl.modifier_state.control_key = true
    ∧ (handle_event false pCtrl
        (.WindowEvent (.MouseInput ElementState.Pressed MouseButton.Left))).raw_input.events
      = [EguiEvent.PointerButton Pos2.default EPointerButton.Primary true EModifiers.default]
    ∧ EModifiers.default ≠ winit_to_egui_modifiers false pCtrl.modifier_state := by
  refine ⟨rfl, ?_, ?_⟩
  · simp [handle_event, pCtrl, Platform.new, descr0, winit_to_egui_mouse_button,
      Platform.push_events, winit_to_egui_modifiers]
  · simp [EModifiers.default, winit_to_egui_modifiers, pCtrl, Platform.new, descr0, handle_event]

/-- Claim C4 (amended): every pointer-button event enqueued by handle_event —
from a native mouse button or from touch pointer emulation — carries the
default (all-false) modifier struct, regardless of the tracked modifier
state; the tracked state is consulted for wheel zoom detection and keyboard
events instead.  The hypothesis on the press counter reflects its `u32` type
in the source. -/
theorem C4_pointer_button_modifiers_always_default (macos : Bool) (p : Platform)
    (e : WinitEvent) (hc : 0 ≤ p.touch_pointer_pressed) (ev : EguiEvent)
    (hmem : ev ∈ ((handle_event macos p e).raw_input.events).drop p.raw_input.events.length)
    (pos : Pos2) (b : EPointerButton) (pr : Bool) (m : EModifiers)
    (heq : ev = EguiEvent.PointerButton pos b pr m) :
    m = EModifiers.default := by
  subst heq
  rcases e with we | _ | _
  rotate_left
  · simp [handle_event, List.drop_length] at hmem
  · simp [handle_event, List.drop_length] at hmem
  rcases we with ⟨w, h⟩ | sf | ⟨st, btn⟩ | t | delta | cpos | _ | input | ke | _
  · rcases w with _ | w <;> rcases h with _ | h <;>
      simp [handle_event, List.drop_length] at hmem
  · simp [handle_event, List.drop_length] at hmem
  · cases btn <;> rcases hp : p.pointer_pos with _ | pp <;>
      simp_all [handle_event, winit_to_egui_mouse_button, Platform.push_events,
        List.drop_length, List.drop_left]
  · rcases t with ⟨dev, tid, ph, loc, fo⟩
    cases ph
    case Started =>
      by_cases h0 : p.touch_pointer_pressed = 0
      · rw [aux_touch_started_from_zero macos p _ rfl h0] at hmem
        simp_all [raw_touch_event, List.drop_left]
      · have hpos : 0 < p.touch_pointer_pressed := by omega
        rw [aux_touch_started_pos macos p _ rfl hpos] at hmem
        simp_all [raw_touch_event, List.drop_left]
    case Moved =>
      rw [aux_touch_moved macos p _ rfl] at hmem
      simp_all [raw_touch_event, List.drop_left]
    case Ended =>
      by_cases h0 : p.touch_pointer_pressed = 0
      · rw [aux_touch_ended_zero macos p _ (Or.inl rfl) h0] at hmem
        simp_all [raw_touch_event, List.drop_left]
      · by_cases h1 : p.touch_pointer_pressed = 1
        · rw [aux_touch_ended_to_zero macos p _ (Or.inl rfl) h1] at hmem
          simp_all [raw_touch_event, List.drop_left]
        · have hgt : 1 < p.touch_pointer_pressed := by omega
          rw [aux_touch_ended_pos macos p _ (Or.inl rfl) hgt] at hmem
          simp_all [raw_touch_event, List.drop_left]
    case Cancelled =>
      by_cases h0 : p.touch_pointer_pressed = 0
      · rw [aux_touch_ended_zero macos p _ (Or.inr rfl) h0] at hmem
        simp_all [raw_touch_event, List.drop_left]
      · by_cases h1 : p.touch_pointer_pressed = 1
        · rw [aux_touch_ended_to_zero macos p _ (Or.inr rfl) h1] at hmem
          simp_all [raw_touch_event, List.drop_left]
        · have hgt : 1 < p.touch_pointer_pressed := by omega
          rw [aux_touch_ended_pos macos p _ (Or.inr rfl) hgt] at hmem
          simp_all [raw_touch_event, List.drop_left]
  · rcases delta with ⟨x, y⟩ | ⟨x, y⟩ <;>
      by_cases hz : (p.raw_input.modifiers.ctrl || p.raw_input.modifiers.command) = true <;>
      simp_all [handle_event, Platform.push_events, List.drop_left]
  · simp [handle_event, Platform.push_events, List.drop_left] at hmem
  · simp [handle_event, Platform.push_events, List.drop_left] at hmem
  · simp [handle_event, List.drop_length] at hmem
  · simp only [handle_event] at hmem
    repeat' split at hmem
    all_goals
      simp_all [Platform.push_events, List.drop_length, List.drop_left, List.append_assoc]
  · simp [handle_event, List.drop_length] at hmem

/-- Witness for the amended C4: the button event of the counterexample
scenario indeed carries the default modifiers. -/
theorem C4_pointer_button_modifiers_always_default_witness :
    (0 : ℤ) ≤ pCtrl.touch_pointer_pressed
    ∧ EguiEvent.PointerButton Pos2.default EPointerButton.Primary true EModifiers.default
        ∈ ((handle_event false pCtrl
            (.WindowEvent (.MouseInput ElementState.Pressed MouseButton.Left))).raw_input.events).drop
          pCtrl.raw_input.events.length
    ∧ EModifiers.default = EModifiers.default := by
  refine ⟨by decide, ?_, ?_⟩
  · simp [handle_event, pCtrl, Platform.new, descr0, winit_to_egui_mouse_button,
      Platform.push_events, winit_to_egui_modifiers]
  · exact C4_pointer_button_modifiers_always_default false pCtrl
      (.WindowEvent (.MouseInput ElementState.Pressed MouseButton.Left)) (by decide)
      (EguiEvent.PointerButton Pos2.default EPointerButton.Primary true EModifiers.default)
      (by simp [handle_event, pCtrl, Platform.new, descr0, winit_to_egui_mouse_button,
        Platform.push_events, winit_to_egui_modifiers])
      Pos2.default EPointerButton.Primary true EModifiers.default rfl

/-! ## Claim C2 -/

/-- The reconciliation invariant: the press counter is non-negative and the
renderer-visible pressed state of the emulated pointer equals the
positivity of the counter. -/
def touch_ok (p : Platform) : Prop :=
  0 ≤ p.touch_pointer_pressed
  ∧ pressed_after p.raw_input.events = decide (0 < p.touch_pointer_pressed)

lemma aux_pressed_after_append (es l : List EguiEvent) :
    pressed_after (es ++ l) = l.foldl pressed_upd (pressed_after es) := by
  simp [pressed_after, List.foldl_append]

lemma aux_touch_step_ok (macos : Bool) (p : Platform) (t : WTouch)
    (h : touch_ok p) : touch_ok (handle_event macos p (.WindowEvent (.Touch t))) := by
  obtain ⟨h0, hpr⟩ := h
  rcases t with ⟨dev, tid, ph, loc, fo⟩
  cases ph
  case Started =>
    by_cases hz : p.touch_pointer_pressed = 0
    · rw [aux_touch_started_from_zero macos p _ rfl hz]
      constructor
      · simp
      · simp [aux_pressed_after_append, pressed_upd, raw_touch_event]
    · have hpos : 0 < p.touch_pointer_pressed := by omega
      rw [aux_touch_started_pos macos p _ rfl hpos]
      constructor
      · simp; omega
      · have h1 : 0 < p.touch_pointer_pressed + 1 := by omega
        simp [aux_pressed_after_append, pressed_upd, raw_touch_event, hpr, hpos, h1]
  case Moved =>
    rw [aux_touch_moved macos p _ rfl]
    exact ⟨h0, by simp [aux_pressed_after_append, pressed_upd, raw_touch_event, hpr]⟩
  case Ended =>
    by_cases hz : p.touch_pointer_pressed = 0
    · rw [aux_touch_ended_zero macos p _ (Or.inl rfl) hz]
      refine ⟨by simp, ?_⟩
      simp [aux_pressed_after_append, pressed_upd, raw_touch_event, hpr, hz]
    · by_cases h1 : p.touch_pointer_pressed = 1
      · rw [aux_touch_ended_to_zero macos p _ (Or.inl rfl) h1]
        refine ⟨by simp, ?_⟩
        simp [aux_pressed_after_append, pressed_upd, raw_touch_event]
      · have hgt : 1 < p.touch_pointer_pressed := by omega
        rw [aux_touch_ended_pos macos p _ (Or.inl rfl) hgt]
        constructor
        · simp; omega
        · have ha : 0 < p.touch_pointer_pressed := by omega
          have hb : 0 < p.touch_pointer_pressed - 1 := by omega
          simp [aux_pressed_after_append, pressed_upd, raw_touch_event, hpr, ha, hb]
  case Cancelled =>
    by_cases hz : p.touch_pointer_pressed = 0
    · rw [aux_touch_ended_zero macos p _ (Or.inr rfl) hz]
      refine ⟨by simp, ?_⟩
      simp [aux_pressed_after_append, pressed_upd, raw_touch_event, hpr, hz]
    · by_cases h1 : p.touch_pointer_pressed = 1
      · rw [aux_touch_ended_to_zero macos p _ (Or.inr rfl) h1]
        refine ⟨by simp, ?_⟩
        simp [aux_pressed_after_append, pressed_upd, raw_touch_event]
      · have hgt : 1 < p.touch_pointer_pressed := by omega
        rw [aux_touch_ended_pos macos p _ (Or.inr rfl) hgt]
        constructor
        · simp; omega
        · have ha : 0 < p.touch_pointer_pressed := by omega
          have hb : 0 < p.touch_pointer_pressed - 1 := by omega
          simp [aux_pressed_after_append, pressed_upd, raw_touch_event, hpr, ha, hb]

lemma aux_touch_list_ok (macos : Bool) (ts : List WTouch) :
    ∀ p : Platform, touch_ok p →
      touch_ok (handle_events macos p
        (ts.map (fun t => WinitEvent.WindowEvent (WindowEvent.Touch t)))) := by
  induction ts with
  | nil => intro p h; exact h
  | cons t ts ih =>
    intro p h
    have step := aux_touch_step_ok macos p t h
    simpa [handle_events] using
      ih (handle_event macos p (.WindowEvent (.Touch t))) step

lemma aux_touch_run_ok (macos : Bool) (d : PlatformDescriptor) (ts : List WTouch) :
    touch_ok (touch_run macos d ts) := by
  have base : touch_ok (Platform.new d) := by
    constructor
    · simp [Platform.new]
    · rfl
  exact aux_touch_list_ok macos ts (Platform.new d) base

/-- Claim C2: over any sequence of native touch events from a fresh platform,
the press counter is never negative and the emulated pointer reads as
pressed exactly when the counter is positive; a touch end or cancel arriving
while the counter is zero clamps it at zero and emits a diagnostic instead
of underflowing. -/
theorem C2_touch_counter_invariant (macos : Bool) (d : PlatformDescriptor)
    (ts ts2 : List WTouch) (t : WTouch)
    (hph : t.phase = WTouchPhase.Ended ∨ t.phase = WTouchPhase.Cancelled)
    (hz : (touch_run macos d ts2).touch_pointer_pressed = 0) :
    0 ≤ (touch_run macos d ts).touch_pointer_pressed
    ∧ pressed_after (touch_run macos d ts).raw_input.events
      = decide (0 < (touch_run macos d ts).touch_pointer_pressed)
    ∧ (handle_event macos (touch_run macos d ts2)
        (.WindowEvent (.Touch t))).touch_pointer_pressed = 0
    ∧ (handle_event macos (touch_run macos d ts2)
        (.WindowEvent (.Touch t))).diagnostics = (touch_run macos d ts2).diagnostics + 1 := by
  obtain ⟨h1, h2⟩ := aux_touch_run_ok macos d ts
  refine ⟨h1, h2, ?_, ?_⟩ <;> rw [aux_touch_ended_zero macos _ t hph hz]

/-- Witness for C2: the one-start run and an end event arriving on the empty
run, where the counter is still zero. -/
theorem C2_touch_counter_invariant_witness :
    (tEnd.phase = WTouchPhase.Ended ∨ tEnd.phase = WTouchPhase.Cancelled)
    ∧ (touch_run false descr0 []).touch_pointer_pressed = 0
    ∧ (0 ≤ (touch_run false descr0 [tStart]).touch_pointer_pressed
       ∧ pressed_after (touch_run false descr0 [tStart]).raw_input.events
         = decide (0 < (touch_run false descr0 [tStart]).touch_pointer_pressed)
       ∧ (handle_event false (touch_run false descr0 [])
           (.WindowEvent (.Touch tEnd))).touch_pointer_pressed = 0
       ∧ (handle_event false (touch_run false descr0 [])
           (.WindowEvent (.Touch tEnd))).diagnostics
         = (touch_run false descr0 []).diagnostics + 1) :=
  ⟨Or.inl rfl, rfl,
    C2_touch_counter_invariant false descr0 [tStart] [] tEnd (Or.inl rfl) rfl⟩

/-! ## Claim C9 -/

lemma aux_registry_update (macos : Bool) (p : Platform) (t : WTouch) :
    (handle_event macos p (.WindowEvent (.Touch t))).device_indices
      = inserted_indices p.device_indices p.next_device_index t.device_id
    ∧ (handle_event macos p (.WindowEvent (.Touch t))).next_device_index
      = next_index_after p.device_indices p.next_device_index t.device_id := ⟨rfl, rfl⟩

lemma aux_lookup_inserted (m : List (ℕ × ℕ)) (next d dev i : ℕ)
    (h : lookupDevice m dev = some i) :
    lookupDevice (inserted_indices m next d) dev = some i := by
  unfold inserted_indices
  cases hl : lookupDevice m d with
  | some j => exact h
  | none =>
    have hne : d ≠ dev := by
      intro hdd
      rw [hdd, h] at hl
      cases hl
    simp [lookupDevice, hne, h]

/-- No event ever removes or changes an existing device-index assignment. -/
lemma aux_registry_preserve (macos : Bool) (p : Platform) (e : WinitEvent)
    (dev i : ℕ) (h : lookupDevice p.device_indices dev = some i) :
    lookupDevice (handle_event macos p e).device_indices dev = some i := by
  rcases e with we | _ | _
  rotate_left
  · exact h
  · exact h
  rcases we with ⟨w, hh⟩ | sf | ⟨st, btn⟩ | t | delta | cpos | _ | input | ke | _
  · rcases w with _ | w <;> rcases hh with _ | hh <;> exact h
  · exact h
  · cases btn <;> rcases hp : p.pointer_pos with _ | pp <;>
      simp_all [handle_event, winit_to_egui_mouse_button, Platform.push_events]
  · rw [(aux_registry_update macos p t).1]
    exact aux_lookup_inserted _ _ _ _ _ h
  · rcases delta with ⟨x, y⟩ | ⟨x, y⟩ <;>
      by_cases hz : (p.raw_input.modifiers.ctrl || p.raw_input.modifiers.command) = true <;>
      simp_all [handle_event, Platform.push_events]
  · exact h
  · exact h
  · exact h
  · simp only [handle_event]
    repeat' split
    all_goals simp_all [Platform.push_events]
  · exact h

/-- The registry invariant: the next free index is one past the number of
assignments, and the assigned indices, in assignment order, are exactly
1, 2, ..., number of assignments. -/
def registry_ok (p : Platform) : Prop :=
  p.next_device_index = p.device_indices.length + 1
  ∧ (p.device_indices.map Prod.snd).reverse
      = (List.range p.device_indices.length).map (fun i => i + 1)

lemma aux_registry_step (macos : Bool) (p : Platform) (t : WTouch)
    (h : registry_ok p) :
    registry_ok (handle_event macos p (.WindowEvent (.Touch t))) := by
  obtain ⟨h1, h2⟩ := h
  obtain ⟨hd, hn⟩ := aux_registry_update macos p t
  unfold registry_ok
  rw [hd, hn]
  unfold inserted_indices next_index_after
  cases hl : lookupDevice p.device_indices t.device_id with
  | some j => exact ⟨h1, h2⟩
  | none =>
    constructor
    · simp [h1]
    · simp [List.reverse_cons, h2, h1, List.range_succ]

lemma aux_registry_list (macos : Bool) (ts : List WTouch) :
    ∀ p : Platform, registry_ok p →
      registry_ok (handle_events macos p
        (ts.map (fun t => WinitEvent.WindowEvent (WindowEvent.Touch t)))) := by
  induction ts with
  | nil => intro p h; exact h
  | cons t ts ih =>
    intro p h
    have step := aux_registry_step macos p t h
    simpa [handle_events] using
      ih (handle_event macos p (.WindowEvent (.Touch t))) step

lemma aux_registry_run (macos : Bool) (d : PlatformDescriptor) (ts : List WTouch) :
    registry_ok (touch_run macos d ts) := by
  have base : registry_ok (Platform.new d) := by
    constructor
    · rfl
    · rfl
  exact aux_registry_list macos ts (Platform.new d) base

/-- Claim C9: over any sequence of touch events from a fresh platform, the
device registry assigns indices 1, 2, 3, ... in first-seen order (next free
index always one past the registry size), resolving a seen handle returns
its previously assigned index and changes nothing, resolving an unseen
handle assigns the next index and bumps it, and no event ever removes or
changes an existing assignment. -/
theorem C9_device_index_registry (macos : Bool) (d : PlatformDescriptor) (ts : List WTouch) :
    (touch_run macos d ts).next_device_index
      = (touch_run macos d ts).device_indices.length + 1
    ∧ ((touch_run macos d ts).device_indices.map Prod.snd).reverse
        = (List.range (touch_run macos d ts).device_indices.length).map (fun i => i + 1)
    ∧ (∀ (t : WTouch) (i : ℕ),
        lookupDevice (touch_run macos d ts).device_indices t.device_id = some i →
        resolve_index (touch_run macos d ts).device_indices
            (touch_run macos d ts).next_device_index t.device_id = i
        ∧ (handle_event macos (touch_run macos d ts)
            (.WindowEvent (.Touch t))).device_indices
          = (touch_run macos d ts).device_indices
        ∧ (handle_event macos (touch_run macos d ts)
            (.WindowEvent (.Touch t))).next_device_index
          = (touch_run macos d ts).next_device_index)
    ∧ (∀ t : WTouch,
        lookupDevice (touch_run macos d ts).device_indices t.device_id = none →
        lookupDevice (handle_event macos (touch_run macos d ts)
            (.WindowEvent (.Touch t))).device_indices t.device_id
          = some (touch_run macos d ts).next_device_index
        ∧ (handle_event macos (touch_run macos d ts)
            (.WindowEvent (.Touch t))).next_device_index
          = (touch_run macos d ts).next_device_index + 1)
    ∧ (∀ (e : WinitEvent) (dev i : ℕ),
        lookupDevice (touch_run macos d ts).device_indices dev = some i →
        lookupDevice (handle_event macos (touch_run macos d ts) e).device_indices dev
          = some i) := by
  obtain ⟨h1, h2⟩ := aux_registry_run macos d ts
  refine ⟨h1, h2, ?_, ?_, ?_⟩
  · intro t i hi
    refine ⟨by simp [resolve_index, hi], ?_, ?_⟩
    · rw [(aux_registry_update macos _ t).1]
      simp [inserted_indices, hi]
    · rw [(aux_registry_update macos _ t).2]
      simp [next_index_after, hi]
  · intro t hnone
    constructor
    · rw [(aux_registry_update macos _ t).1]
      simp [inserted_indices, hnone, lookupDevice]
    · rw [(aux_registry_update macos _ t).2]
      simp [next_index_after, hnone]
  · intro e dev i hi
    exact aux_registry_preserve macos _ e dev i hi

/-- A second concrete touch from a distinct device handle. -/
def tOther : WTouch :=
  { device_id := 9, id := 3, phase := WTouchPhase.Started,
    location := { x := 1, y := 2 }, force := none }

/-- Witness for C9: after one touch from device 5, that handle resolves to
index 1 idempotently, and the unseen handle 9 is assigned the next index 2. -/
theorem C9_device_index_registry_witness :
    lookupDevice (touch_run false descr0 [tStart]).device_indices tStart.device_id = some 1
    ∧ lookupDevice (touch_run false descr0 [tStart]).device_indices tOther.device_id = none
    ∧ resolve_index (touch_run false descr0 [tStart]).device_indices
        (touch_run false descr0 [tStart]).next_device_index tStart.device_id = 1
    ∧ (handle_event false (touch_run false descr0 [tStart])
        (.WindowEvent (.Touch tStart))).device_indices
      = (touch_run false descr0 [tStart]).device_indices
    ∧ lookupDevice (handle_event false (touch_run false descr0 [tStart])
        (.WindowEvent (.Touch tOther))).device_indices tOther.device_id
      = some (touch_run false descr0 [tStart]).next_device_index
    ∧ (handle_event false (touch_run false descr0 [tStart])
        (.WindowEvent (.Touch tOther))).next_device_index
      = (touch_run false descr0 [tStart]).next_device_index + 1 := by
  have H := C9_device_index_registry false descr0 [tStart]
  refine ⟨by decide, by decide, ?_, ?_, ?_, ?_⟩
  · exact (H.2.2.1 tStart 1 (by decide)).1
  · exact (H.2.2.1 tStart 1 (by decide)).2.1
  · exact (H.2.2.2.1 tOther (by decide)).1
  · exact (H.2.2.2.1 tOther (by decide)).2
